import Mathlib

/-!
Verification of the sommelier coordinate transform and window scale
negotiation engine (sommelier-transform.cc).

The C code computes with IEEE doubles; this development models them with
exact rational arithmetic, which captures the rounding contracts of the
code (truncation toward zero, round to nearest, ceiling) exactly.
Machine integers (int32_t, int64_t) are modelled as unbounded integers;
out parameters become returned tuples, and the mutation of the surface
record by the negotiator becomes a function from surface to surface.
A nullable surface pointer is an Option value.
-/

/-- Truncation of a rational toward zero, modelling the C trunc function
and the conversion from an integral double back to a machine integer. -/
def ratTrunc (q : ℚ) : ℤ := if q < 0 then ⌈q⌉ else ⌊q⌋

/-- Rounding of a rational to the nearest integer with halves away from
zero, modelling the C lround function. -/
def ratLround (q : ℚ) : ℤ := if q < 0 then -round (-q) else round q

/-- Modelled from the spec: the fixed-point sub-pixel wire format is a
24 bit integer part with an 8 bit fraction, decoded by dividing by 256.
The decoder wl_fixed_to_double belongs to the wayland library, which is
not part of the visible sources. -/
def wl_fixed_to_double (f : ℤ) : ℚ := (f : ℚ) / 256

/-- Modelled from the spec: re-encoding of a floating value into the
fixed-point wire format, scaling by 256 and rounding to the nearest
representable value. The encoder wl_fixed_from_double belongs to the
wayland library, which is not part of the visible sources. -/
def wl_fixed_from_double (d : ℚ) : ℤ := round (d * 256)

/-- Modelled from the spec: MIN_SIZE bounds legal rectangle coordinates
in legacy-mode damage transforms. The constant lives in a header that is
not part of the visible sources; the value is the protocol coordinate
range bound INT_MIN / 10 named by the repository. -/
def MIN_SIZE : ℤ := -214748364

/-- Modelled from the spec: MAX_SIZE bounds legal rectangle coordinates
in legacy-mode damage transforms, the bound INT_MAX / 10. -/
def MAX_SIZE : ℤ := 214748364

/-- Process-wide scale configuration, the fields of sl_context read by
the transform engine. -/
structure sl_context where
  use_direct_scale : Bool
  scale : ℚ
  xdg_scale_x : ℚ
  xdg_scale_y : ℚ
  deriving DecidableEq

/-- Per-surface scale override state, the fields of sl_host_surface read
and written by the transform engine. -/
structure sl_host_surface where
  has_own_scale : Bool
  xdg_scale_x : ℚ
  xdg_scale_y : ℚ
  scale_round_on_x : Bool
  scale_round_on_y : Bool
  cached_logical_width : ℤ
  cached_logical_height : ℤ
  deriving DecidableEq

/-- The C condition surface and surface has_own_scale, on a nullable
surface pointer. -/
def surfaceOwnScale : Option sl_host_surface → Bool
  | some s => s.has_own_scale
  | none => false

/-- The C condition surface and surface scale_round_on_x. -/
def surfaceRoundX : Option sl_host_surface → Bool
  | some s => s.scale_round_on_x
  | none => false

/-- The C condition surface and surface scale_round_on_y. -/
def surfaceRoundY : Option sl_host_surface → Bool
  | some s => s.scale_round_on_y
  | none => false

/-- sl_transform_get_scale_factors: the Scale Configuration Resolver. -/
def sl_transform_get_scale_factors (ctx : sl_context) :
    Option sl_host_surface → ℚ × ℚ
  | some surface =>
      if ctx.use_direct_scale && surface.has_own_scale then
        (surface.xdg_scale_x, surface.xdg_scale_y)
      else
        (ctx.xdg_scale_x, ctx.xdg_scale_y)
  | none => (ctx.xdg_scale_x, ctx.xdg_scale_y)

/-- sl_transform_direct_axis_scale: axis 0 selects the vertical factor,
any other axis the horizontal factor. -/
def sl_transform_direct_axis_scale (ctx : sl_context)
    (surface : Option sl_host_surface) (axis : ℕ) : ℚ :=
  let f := sl_transform_get_scale_factors ctx surface
  if axis == 0 then f.2 else f.1

/-- sl_transform_direct_to_host_damage: one corner of a damage rectangle,
converted by truncating division. The unused ctx and surface pointer
parameters of the C function are omitted. -/
def sl_transform_direct_to_host_damage (x y : ℤ) (scale_x scale_y : ℚ) :
    ℤ × ℤ :=
  (ratTrunc ((x : ℚ) / scale_x), ratTrunc ((y : ℚ) / scale_y))

/-- sl_transform_direct_to_guest_fixed, single axis overload. -/
def sl_transform_direct_to_guest_fixed_axis (ctx : sl_context)
    (surface : Option sl_host_surface) (coord : ℤ) (axis : ℕ) : ℤ :=
  wl_fixed_from_double
    (wl_fixed_to_double coord * sl_transform_direct_axis_scale ctx surface axis)

/-- sl_transform_direct_to_guest_fixed, two axis overload. -/
def sl_transform_direct_to_guest_fixed (ctx : sl_context)
    (surface : Option sl_host_surface) (x y : ℤ) : ℤ × ℤ :=
  let f := sl_transform_get_scale_factors ctx surface
  (wl_fixed_from_double (wl_fixed_to_double x * f.1),
   wl_fixed_from_double (wl_fixed_to_double y * f.2))

/-- sl_transform_direct_to_host_fixed, single axis overload. -/
def sl_transform_direct_to_host_fixed_axis (ctx : sl_context)
    (surface : Option sl_host_surface) (coord : ℤ) (axis : ℕ) : ℤ :=
  wl_fixed_from_double
    (wl_fixed_to_double coord / sl_transform_direct_axis_scale ctx surface axis)

/-- sl_transform_direct_to_host_fixed, two axis overload. -/
def sl_transform_direct_to_host_fixed (ctx : sl_context)
    (surface : Option sl_host_surface) (x y : ℤ) : ℤ × ℤ :=
  let f := sl_transform_get_scale_factors ctx surface
  (wl_fixed_from_double (wl_fixed_to_double x / f.1),
   wl_fixed_from_double (wl_fixed_to_double y / f.2))

/-- sl_transform_direct_to_guest: multiply by the resolved factors, then
per axis round to nearest when the surface asks for it, else truncate. -/
def sl_transform_direct_to_guest (ctx : sl_context)
    (surface : Option sl_host_surface) (x y : ℤ) : ℤ × ℤ :=
  let f := sl_transform_get_scale_factors ctx surface
  let inputx := f.1 * (x : ℚ)
  let inputy := f.2 * (y : ℚ)
  ((if surfaceRoundX surface then ratLround inputx else ratTrunc inputx),
   (if surfaceRoundY surface then ratLround inputy else ratTrunc inputy))

/-- sl_transform_direct_to_host: truncating division by the resolved
factors. -/
def sl_transform_direct_to_host (ctx : sl_context)
    (surface : Option sl_host_surface) (x y : ℤ) : ℤ × ℤ :=
  let f := sl_transform_get_scale_factors ctx surface
  (ratTrunc ((x : ℚ) / f.1), ratTrunc ((y : ℚ) / f.2))

/-- sl_transform_viewport_scale: returns the transformed width and
height and the do_viewport signal. -/
def sl_transform_viewport_scale (ctx : sl_context)
    (surface : Option sl_host_surface) (contents_scale : ℚ)
    (width height : ℤ) : ℤ × ℤ × Bool :=
  let scale := ctx.scale * contents_scale
  let do_viewport := true
  if ctx.use_direct_scale then
    let p := sl_transform_direct_to_host ctx surface width height
    ((if p.1 ≤ 0 then 1 else p.1), (if p.2 ≤ 0 then 1 else p.2), do_viewport)
  else
    (⌈(width : ℚ) / scale⌉, ⌈(height : ℚ) / scale⌉, do_viewport)

/-- sl_transform_damage_coord: damage rectangle conversion from buffer
pixel space to host logical space. -/
def sl_transform_damage_coord (ctx : sl_context)
    (surface : Option sl_host_surface) (buffer_scalex buffer_scaley : ℚ)
    (x1 y1 x2 y2 : ℤ) : ℤ × ℤ × ℤ × ℤ :=
  if ctx.use_direct_scale then
    let f := sl_transform_get_scale_factors ctx surface
    let scalex := f.1 * buffer_scalex
    let scaley := f.2 * buffer_scaley
    let p := sl_transform_direct_to_host_damage x1 y1 scalex scaley
    let q := sl_transform_direct_to_host_damage x2 y2 scalex scaley
    (p.1, p.2, q.1, q.2)
  else
    let sx := buffer_scalex * ctx.scale
    let sy := buffer_scaley * ctx.scale
    (ratTrunc ((max MIN_SIZE (x1 - 1) : ℤ) / sx),
     ratTrunc ((max MIN_SIZE (y1 - 1) : ℤ) / sy),
     ⌈((min (x2 + 1) MAX_SIZE : ℤ) : ℚ) / sx⌉,
     ⌈((min (y2 + 1) MAX_SIZE : ℤ) : ℚ) / sy⌉)

/-- sl_transform_host_to_guest: integer coordinates, host to guest. -/
def sl_transform_host_to_guest (ctx : sl_context)
    (surface : Option sl_host_surface) (x y : ℤ) : ℤ × ℤ :=
  if ctx.use_direct_scale then
    sl_transform_direct_to_guest ctx surface x y
  else
    (ratTrunc ((x : ℚ) * ctx.scale), ratTrunc ((y : ℚ) * ctx.scale))

/-- sl_transform_host_to_guest_fixed, two axis overload. -/
def sl_transform_host_to_guest_fixed (ctx : sl_context)
    (surface : Option sl_host_surface) (x y : ℤ) : ℤ × ℤ :=
  if ctx.use_direct_scale then
    sl_transform_direct_to_guest_fixed ctx surface x y
  else
    (wl_fixed_from_double (wl_fixed_to_double x * ctx.scale),
     wl_fixed_from_double (wl_fixed_to_double y * ctx.scale))

/-- sl_transform_host_to_guest_fixed, single axis overload. -/
def sl_transform_host_to_guest_fixed_axis (ctx : sl_context)
    (surface : Option sl_host_surface) (coord : ℤ) (axis : ℕ) : ℤ :=
  if ctx.use_direct_scale then
    sl_transform_direct_to_guest_fixed_axis ctx surface coord axis
  else
    wl_fixed_from_double (wl_fixed_to_double coord * ctx.scale)

/-- sl_transform_guest_to_host: integer coordinates, guest to host. -/
def sl_transform_guest_to_host (ctx : sl_context)
    (surface : Option sl_host_surface) (x y : ℤ) : ℤ × ℤ :=
  if ctx.use_direct_scale then
    sl_transform_direct_to_host ctx surface x y
  else
    (ratTrunc ((x : ℚ) / ctx.scale), ratTrunc ((y : ℚ) / ctx.scale))

/-- sl_transform_guest_to_host_fixed, two axis overload. -/
def sl_transform_guest_to_host_fixed (ctx : sl_context)
    (surface : Option sl_host_surface) (x y : ℤ) : ℤ × ℤ :=
  if ctx.use_direct_scale then
    sl_transform_direct_to_host_fixed ctx surface x y
  else
    (wl_fixed_from_double (wl_fixed_to_double x / ctx.scale),
     wl_fixed_from_double (wl_fixed_to_double y / ctx.scale))

/-- sl_transform_guest_to_host_fixed, single axis overload. -/
def sl_transform_guest_to_host_fixed_axis (ctx : sl_context)
    (surface : Option sl_host_surface) (coord : ℤ) (axis : ℕ) : ℤ :=
  if ctx.use_direct_scale then
    sl_transform_direct_to_host_fixed_axis ctx surface coord axis
  else
    wl_fixed_from_double (wl_fixed_to_double coord / ctx.scale)

/-- sl_transform_reset_surface_scale: clear the override flag, both
rounding flags and both override factors. The cached logical dimensions
are not touched by the C function. -/
def sl_transform_reset_surface_scale (surface : sl_host_surface) :
    sl_host_surface :=
  { surface with
    has_own_scale := false
    scale_round_on_x := false
    scale_round_on_y := false
    xdg_scale_x := 0
    xdg_scale_y := 0 }

/-- The surface record written by the install branch of the negotiator,
before the rounding flag re-test: the override flag is set, the
override factors are the ratios of the requested pixel size to the
logical size computed with the global factors, and the logical size is
cached. The other fields, the rounding flags among them, keep the
values the surface already had. This is the record update of the C
install branch, split out as a named definition. -/
def installedSurface (ctx : sl_context) (surface : sl_host_surface)
    (w h : ℤ) : sl_host_surface :=
  { surface with
    has_own_scale := true
    xdg_scale_x := (w : ℚ) / ((sl_transform_guest_to_host ctx none w h).1 : ℚ)
    xdg_scale_y := (h : ℚ) / ((sl_transform_guest_to_host ctx none w h).2 : ℚ)
    cached_logical_height := (sl_transform_guest_to_host ctx none w h).2
    cached_logical_width := (sl_transform_guest_to_host ctx none w h).1 }

/-- The branch condition of the negotiator, read off the source: the
round trip of the requested size through the global factors is inexact,
and both intermediate logical dimensions are positive. -/
def negotiationInstallCond (ctx : sl_context) (w h : ℤ) : Prop :=
  ((sl_transform_host_to_guest ctx none
      (sl_transform_guest_to_host ctx none w h).1
      (sl_transform_guest_to_host ctx none w h).2).1 ≠ w ∨
   (sl_transform_host_to_guest ctx none
      (sl_transform_guest_to_host ctx none w h).1
      (sl_transform_guest_to_host ctx none w h).2).2 ≠ h) ∧
  ((sl_transform_guest_to_host ctx none w h).1 > 0 ∧
   (sl_transform_guest_to_host ctx none w h).2 > 0)

/-- sl_transform_try_window_scale: the Window Scale Negotiator. The C
function mutates the surface; here it returns the updated surface. The
names logical and reverse correspond to logical_width, logical_height
and reverse_width, reverse_height of the C code; retest corresponds to
the second full cycle performed after installing the override, and the
record update of the install branch is the definition
installedSurface. -/
def sl_transform_try_window_scale (ctx : sl_context)
    (surface : sl_host_surface)
    (width_in_pixels height_in_pixels : ℤ) : sl_host_surface :=
  if !ctx.use_direct_scale then surface
  else
    let logical :=
      sl_transform_guest_to_host ctx none width_in_pixels height_in_pixels
    let reverse := sl_transform_host_to_guest ctx none logical.1 logical.2
    if (reverse.1 ≠ width_in_pixels ∨ reverse.2 ≠ height_in_pixels) ∧
        (logical.1 > 0 ∧ logical.2 > 0) then
      let s1 := installedSurface ctx surface width_in_pixels height_in_pixels
      let fwd :=
        sl_transform_guest_to_host ctx (some s1) width_in_pixels
          height_in_pixels
      let retest := sl_transform_host_to_guest ctx (some s1) fwd.1 fwd.2
      let s2 :=
        if retest.1 ≠ width_in_pixels then
          { s1 with scale_round_on_x := true }
        else s1
      if retest.2 ≠ height_in_pixels then
        { s2 with scale_round_on_y := true }
      else s2
    else
      sl_transform_reset_surface_scale surface

/-- sl_transform_output_dimensions: always multiplies by the uniform
legacy factor. -/
def sl_transform_output_dimensions (ctx : sl_context) (width height : ℤ) :
    ℤ × ℤ :=
  (ratTrunc ((width : ℚ) * ctx.scale), ratTrunc ((height : ℚ) * ctx.scale))

/-- Damage conversion in direct mode as the spec words it: the per axis
scale is the resolved factor times the buffer scale, and both corners
are converted independently by truncating division, with no outset and
no clamp. -/
def spec_damage_direct (ctx : sl_context) (t : Option sl_host_surface)
    (bsx bsy : ℚ) (x1 y1 x2 y2 : ℤ) : ℤ × ℤ × ℤ × ℤ :=
  let f := sl_transform_get_scale_factors ctx t
  (ratTrunc ((x1 : ℚ) / (f.1 * bsx)), ratTrunc ((y1 : ℚ) / (f.2 * bsy)),
   ratTrunc ((x2 : ℚ) / (f.1 * bsx)), ratTrunc ((y2 : ℚ) / (f.2 * bsy)))

/-- Damage conversion in legacy mode as the spec words it: the per axis
scale is the legacy scale times the buffer scale; the top left corner is
decremented by one and kept at least MIN_SIZE, then truncated after
scaling; the bottom right corner is incremented by one and kept at most
MAX_SIZE, then rounded up after scaling. -/
def spec_damage_legacy (ctx : sl_context) (bsx bsy : ℚ)
    (x1 y1 x2 y2 : ℤ) : ℤ × ℤ × ℤ × ℤ :=
  (ratTrunc ((max MIN_SIZE (x1 - 1) : ℤ) / (ctx.scale * bsx)),
   ratTrunc ((max MIN_SIZE (y1 - 1) : ℤ) / (ctx.scale * bsy)),
   ⌈((min (x2 + 1) MAX_SIZE : ℤ) : ℚ) / (ctx.scale * bsx)⌉,
   ⌈((min (y2 + 1) MAX_SIZE : ℤ) : ℚ) / (ctx.scale * bsy)⌉)

/-- Viewport size conversion in direct mode as the spec words it: apply
the guest to host transform to the size, then clamp each resulting
dimension to a floor of one. -/
def spec_viewport_direct (ctx : sl_context) (t : Option sl_host_surface)
    (w h : ℤ) : ℤ × ℤ :=
  let p := sl_transform_guest_to_host ctx t w h
  (max p.1 1, max p.2 1)

/-- Viewport size conversion in legacy mode as the spec words it: the
ceiling of each dimension divided by legacy scale times contents
scale. -/
def spec_viewport_legacy (ctx : sl_context) (contents_scale : ℚ)
    (w h : ℤ) : ℤ × ℤ :=
  (⌈(w : ℚ) / (ctx.scale * contents_scale)⌉,
   ⌈(h : ℚ) / (ctx.scale * contents_scale)⌉)

/-! ### Basic lemmas about the rounding helpers -/

theorem ratTrunc_intCast (n : ℤ) : ratTrunc (n : ℚ) = n := by
  unfold ratTrunc
  split <;> simp

theorem ratLround_intCast (n : ℤ) : ratLround (n : ℚ) = n := by
  unfold ratLround
  split
  · rw [← Int.cast_neg, round_intCast]
    ring
  · exact round_intCast n

theorem ratTrunc_pos_one_le {q : ℚ} (h : 0 < ratTrunc q) : 1 ≤ q := by
  unfold ratTrunc at h
  split at h
  · rename_i hq
    have hc : ⌈q⌉ ≤ 0 := Int.ceil_le.mpr (by exact_mod_cast hq.le)
    omega
  · have h1 : (1 : ℤ) ≤ ⌊q⌋ := h
    exact_mod_cast (Int.le_floor.mp h1)

theorem wl_fixed_roundtrip (f : ℤ) :
    wl_fixed_from_double (wl_fixed_to_double f) = f := by
  unfold wl_fixed_from_double wl_fixed_to_double
  rw [div_mul_cancel₀ _ (by norm_num : (256 : ℚ) ≠ 0)]
  exact round_intCast f

/-! ### Lemmas about the resolver -/

theorem get_scale_factors_none (ctx : sl_context) :
    sl_transform_get_scale_factors ctx none =
      (ctx.xdg_scale_x, ctx.xdg_scale_y) := rfl

theorem get_scale_factors_global (ctx : sl_context)
    (t : Option sl_host_surface)
    (h : (ctx.use_direct_scale && surfaceOwnScale t) = false) :
    sl_transform_get_scale_factors ctx t =
      (ctx.xdg_scale_x, ctx.xdg_scale_y) := by
  cases t with
  | none => rfl
  | some s => simp_all [sl_transform_get_scale_factors, surfaceOwnScale]

theorem get_scale_factors_own (ctx : sl_context) (s : sl_host_surface)
    (hd : ctx.use_direct_scale = true) (h : s.has_own_scale = true) :
    sl_transform_get_scale_factors ctx (some s) =
      (s.xdg_scale_x, s.xdg_scale_y) := by
  simp [sl_transform_get_scale_factors, hd, h]

/-! ### Claim theorems -/

/-- C7: calling sl_transform_reset_surface_scale twice leaves state
identical to calling it once; one call yields has_own_scale false, both
rounding flags false and both override factors zero, and the cached
logical dimensions are unchanged. -/
theorem C7_reset_idempotent (s : sl_host_surface) :
    sl_transform_reset_surface_scale (sl_transform_reset_surface_scale s) =
      sl_transform_reset_surface_scale s ∧
    (sl_transform_reset_surface_scale s).has_own_scale = false ∧
    (sl_transform_reset_surface_scale s).scale_round_on_x = false ∧
    (sl_transform_reset_surface_scale s).scale_round_on_y = false ∧
    (sl_transform_reset_surface_scale s).xdg_scale_x = 0 ∧
    (sl_transform_reset_surface_scale s).xdg_scale_y = 0 ∧
    (sl_transform_reset_surface_scale s).cached_logical_width =
      s.cached_logical_width ∧
    (sl_transform_reset_surface_scale s).cached_logical_height =
      s.cached_logical_height :=
  ⟨rfl, rfl, rfl, rfl, rfl, rfl, rfl, rfl⟩

/-- C8: sl_transform_output_dimensions multiplies both dimensions by the
uniform legacy scale factor whatever the mode flag is, and with legacy
scale two it maps the pair ten and twenty to twenty and forty in both
modes. -/
theorem C8_output_dimensions_uniform (ctx : sl_context) (w h : ℤ)
    (b : Bool) :
    sl_transform_output_dimensions ctx w h =
      (ratTrunc ((w : ℚ) * ctx.scale), ratTrunc ((h : ℚ) * ctx.scale)) ∧
    sl_transform_output_dimensions { ctx with use_direct_scale := b } w h =
      sl_transform_output_dimensions ctx w h ∧
    sl_transform_output_dimensions ⟨false, 2, 1, 1⟩ 10 20 = (20, 40) ∧
    sl_transform_output_dimensions ⟨true, 2, 1, 1⟩ 10 20 = (20, 40) :=
  ⟨rfl, rfl,
   by norm_num [sl_transform_output_dimensions, ratTrunc, Int.floor_eq_iff,
     Prod.ext_iff],
   by norm_num [sl_transform_output_dimensions, ratTrunc, Int.floor_eq_iff,
     Prod.ext_iff]⟩

/-- C3 counterexample: with the legacy mode flag, legacy scale two and
direct mode defaults three, the resolver does not return the legacy
scale pair; it returns the direct mode defaults. -/
theorem C3_counterexample :
    sl_transform_get_scale_factors ⟨false, 2, 3, 3⟩ none ≠ (2, 2) := by
  norm_num [sl_transform_get_scale_factors, Prod.ext_iff]

/-- C3 amended: if direct mode is active and the surface has an
override, the resolver returns the override factors; in every other
case, in either mode, it returns the process wide default factors
xdg_scale_x and xdg_scale_y, never consulting the legacy scale. It is a
total function. -/
theorem C3_resolver_contract (ctx : sl_context) (s : sl_host_surface)
    (t : Option sl_host_surface) :
    (ctx.use_direct_scale = true → s.has_own_scale = true →
      sl_transform_get_scale_factors ctx (some s) =
        (s.xdg_scale_x, s.xdg_scale_y)) ∧
    ((ctx.use_direct_scale && surfaceOwnScale t) = false →
      sl_transform_get_scale_factors ctx t =
        (ctx.xdg_scale_x, ctx.xdg_scale_y)) :=
  ⟨fun hd h => get_scale_factors_own ctx s hd h,
   fun h => get_scale_factors_global ctx t h⟩

theorem C3_resolver_contract_witness :
    ((⟨true, 1, 2, 2⟩ : sl_context).use_direct_scale = true) ∧
    ((⟨true, 5, 7, false, false, 0, 0⟩ : sl_host_surface).has_own_scale
      = true) ∧
    sl_transform_get_scale_factors ⟨true, 1, 2, 2⟩
      (some ⟨true, 5, 7, false, false, 0, 0⟩) = (5, 7) ∧
    sl_transform_get_scale_factors ⟨false, 2, 3, 3⟩ none = (3, 3) := by
  refine ⟨rfl, rfl, ?_, ?_⟩
  · exact (C3_resolver_contract ⟨true, 1, 2, 2⟩
      ⟨true, 5, 7, false, false, 0, 0⟩ none).1 rfl rfl
  · exact (C3_resolver_contract ⟨false, 2, 3, 3⟩
      ⟨false, 0, 0, false, false, 0, 0⟩ none).2 rfl

/-- C10: in direct scale mode with a null surface pointer, the host to
guest transform truncates both axes toward zero with the global
factors; the rounding flags are never consulted, so the negotiator test
through a null pointer always truncates. -/
theorem C10_null_surface_truncates (ctx : sl_context) (x y : ℤ)
    (hd : ctx.use_direct_scale = true) :
    sl_transform_direct_to_guest ctx none x y =
      (ratTrunc (ctx.xdg_scale_x * (x : ℚ)),
       ratTrunc (ctx.xdg_scale_y * (y : ℚ))) ∧
    sl_transform_host_to_guest ctx none x y =
      (ratTrunc (ctx.xdg_scale_x * (x : ℚ)),
       ratTrunc (ctx.xdg_scale_y * (y : ℚ))) := by
  constructor
  · rfl
  · simp only [sl_transform_host_to_guest, hd, if_true]
    rfl

theorem C10_null_surface_truncates_witness :
    ((⟨true, 1, 3 / 2, 3 / 2⟩ : sl_context).use_direct_scale = true) ∧
    sl_transform_host_to_guest ⟨true, 1, 3 / 2, 3 / 2⟩ none 1 1 = (1, 1) := by
  refine ⟨rfl, ?_⟩
  rw [(C10_null_surface_truncates ⟨true, 1, 3 / 2, 3 / 2⟩ 1 1 rfl).2]
  norm_num [ratTrunc, Int.floor_eq_iff, Prod.ext_iff]

/-- C4: the damage transform follows the direct mode contract exactly
when the direct flag is set and the legacy contract exactly otherwise,
and the two modes disagree on a rectangle even when the scales are
numerically equal. -/
theorem C4_damage_modes (ctx : sl_context) (t : Option sl_host_surface)
    (bsx bsy : ℚ) (x1 y1 x2 y2 : ℤ) :
    sl_transform_damage_coord ctx t bsx bsy x1 y1 x2 y2 =
      (if ctx.use_direct_scale then
        spec_damage_direct ctx t bsx bsy x1 y1 x2 y2
       else spec_damage_legacy ctx bsx bsy x1 y1 x2 y2) ∧
    sl_transform_damage_coord ⟨true, 2, 2, 2⟩ none 1 1 10 10 20 20 ≠
      sl_transform_damage_coord ⟨false, 2, 2, 2⟩ none 1 1 10 10 20 20 := by
  constructor
  · unfold sl_transform_damage_coord spec_damage_direct spec_damage_legacy
      sl_transform_direct_to_host_damage
    split
    · rfl
    · simp only [mul_comm bsx ctx.scale, mul_comm bsy ctx.scale]
  · norm_num [sl_transform_damage_coord, sl_transform_direct_to_host_damage,
      sl_transform_get_scale_factors, ratTrunc, Int.floor_eq_iff,
      Int.ceil_eq_iff, Prod.ext_iff, MIN_SIZE, MAX_SIZE, max_def, min_def]

/-- C5: the viewport transform always signals do_viewport; in direct
mode it applies guest to host and clamps each dimension to a floor of
one, so no output dimension is nonpositive; in legacy mode it takes the
ceiling of each dimension divided by legacy scale times contents
scale. -/
theorem C5_viewport_scale (ctx : sl_context) (t : Option sl_host_surface)
    (cs : ℚ) (w h : ℤ) :
    (sl_transform_viewport_scale ctx t cs w h).2.2 = true ∧
    (ctx.use_direct_scale = true →
      sl_transform_viewport_scale ctx t cs w h =
        ((spec_viewport_direct ctx t w h).1,
         (spec_viewport_direct ctx t w h).2, true) ∧
      1 ≤ (sl_transform_viewport_scale ctx t cs w h).1 ∧
      1 ≤ (sl_transform_viewport_scale ctx t cs w h).2.1) ∧
    (ctx.use_direct_scale = false →
      sl_transform_viewport_scale ctx t cs w h =
        ((spec_viewport_legacy ctx cs w h).1,
         (spec_viewport_legacy ctx cs w h).2, true)) := by
  refine ⟨?_, ?_, ?_⟩
  · unfold sl_transform_viewport_scale
    split <;> rfl
  · intro hd
    unfold sl_transform_viewport_scale spec_viewport_direct
      sl_transform_guest_to_host
    simp only [hd, if_true]
    have hmax : ∀ n : ℤ, (if n ≤ 0 then (1 : ℤ) else n) = max n 1 := by
      intro n
      split <;> omega
    refine ⟨?_, ?_, ?_⟩
    · rw [hmax, hmax]
    · split <;> omega
    · split <;> omega
  · intro hd
    unfold sl_transform_viewport_scale spec_viewport_legacy
    simp only [hd]
    rfl

theorem C5_viewport_scale_witness :
    ((⟨true, 1, 100, 100⟩ : sl_context).use_direct_scale = true) ∧
    sl_transform_viewport_scale ⟨true, 1, 100, 100⟩
      (some ⟨false, 0, 0, false, false, 0, 0⟩) 1 1 1 = (1, 1, true) := by
  refine ⟨rfl, ?_⟩
  rw [((C5_viewport_scale ⟨true, 1, 100, 100⟩
    (some ⟨false, 0, 0, false, false, 0, 0⟩) 1 1 1).2.1 rfl).1]
  norm_num [spec_viewport_direct, sl_transform_guest_to_host,
    sl_transform_direct_to_host, sl_transform_get_scale_factors, ratTrunc,
    Int.floor_eq_iff, Prod.ext_iff, max_def]

/-! ### Scale one identity lemmas -/

theorem ratTrunc_div_one (x : ℤ) : ratTrunc ((x : ℚ) / 1) = x := by
  rw [div_one, ratTrunc_intCast]

theorem ratTrunc_mul_one (x : ℤ) : ratTrunc ((x : ℚ) * 1) = x := by
  rw [mul_one, ratTrunc_intCast]

theorem wl_fixed_mul_one (x : ℤ) :
    wl_fixed_from_double (wl_fixed_to_double x * 1) = x := by
  rw [mul_one, wl_fixed_roundtrip]

theorem wl_fixed_div_one (x : ℤ) :
    wl_fixed_from_double (wl_fixed_to_double x / 1) = x := by
  rw [div_one, wl_fixed_roundtrip]

theorem roundflag_intCast (b : Bool) (x : ℤ) :
    (if b then ratLround ((x : ℚ)) else ratTrunc ((x : ℚ))) = x := by
  cases b <;> simp [ratTrunc_intCast, ratLround_intCast]

/-- C6 counterexample: at scale one the legacy damage transform outsets
the rectangle, the direct mode viewport clamps a zero width to one, and
the output dimension transform follows the legacy factor even in direct
mode, so not every listed operation is the identity. -/
theorem C6_counterexample :
    sl_transform_damage_coord ⟨false, 1, 1, 1⟩ none 1 1 10 10 20 20 ≠
      (10, 10, 20, 20) ∧
    sl_transform_viewport_scale ⟨true, 1, 1, 1⟩
      (some ⟨false, 0, 0, false, false, 0, 0⟩) 1 0 5 ≠ (0, 5, true) ∧
    sl_transform_output_dimensions ⟨true, 2, 1, 1⟩ 10 20 ≠ (10, 20) := by
  refine ⟨?_, ?_, ?_⟩
  · norm_num [sl_transform_damage_coord, sl_transform_direct_to_host_damage,
      sl_transform_get_scale_factors, ratTrunc, Int.floor_eq_iff,
      Int.ceil_eq_iff, Prod.ext_iff, MIN_SIZE, MAX_SIZE, max_def, min_def]
  · norm_num [sl_transform_viewport_scale, sl_transform_direct_to_host,
      sl_transform_get_scale_factors, ratTrunc, Int.floor_eq_iff,
      Prod.ext_iff]
  · norm_num [sl_transform_output_dimensions, ratTrunc, Int.floor_eq_iff,
      Prod.ext_iff]

/-- C6 amended: with legacy scale one in legacy mode, or direct defaults
one and no override in direct mode, the integer and fixed point
coordinate transforms in both directions, including the single axis
variants, are the identity; the viewport transform with contents scale
one is the identity in legacy mode and the identity on positive
dimensions in direct mode; the damage transform with buffer scales one
is the identity in direct mode only; the output dimension transform is
the identity exactly in the legacy configuration, because it always
uses the legacy factor. -/
theorem C6_scale_one_identity (ctxL ctxD : sl_context)
    (t : Option sl_host_surface) (x y px py x2 y2 : ℤ)
    (hL : ctxL.use_direct_scale = false) (hLs : ctxL.scale = 1)
    (hD : ctxD.use_direct_scale = true) (hDx : ctxD.xdg_scale_x = 1)
    (hDy : ctxD.xdg_scale_y = 1) (ht : surfaceOwnScale t = false)
    (hpx : 1 ≤ px) (hpy : 1 ≤ py) :
    sl_transform_guest_to_host ctxL t x y = (x, y) ∧
    sl_transform_host_to_guest ctxL t x y = (x, y) ∧
    sl_transform_guest_to_host_fixed ctxL t x y = (x, y) ∧
    sl_transform_host_to_guest_fixed ctxL t x y = (x, y) ∧
    sl_transform_guest_to_host_fixed_axis ctxL t x 0 = x ∧
    sl_transform_guest_to_host_fixed_axis ctxL t x 1 = x ∧
    sl_transform_host_to_guest_fixed_axis ctxL t x 0 = x ∧
    sl_transform_host_to_guest_fixed_axis ctxL t x 1 = x ∧
    sl_transform_viewport_scale ctxL t 1 x y = (x, y, true) ∧
    sl_transform_output_dimensions ctxL x y = (x, y) ∧
    sl_transform_guest_to_host ctxD t x y = (x, y) ∧
    sl_transform_host_to_guest ctxD t x y = (x, y) ∧
    sl_transform_guest_to_host_fixed ctxD t x y = (x, y) ∧
    sl_transform_host_to_guest_fixed ctxD t x y = (x, y) ∧
    sl_transform_guest_to_host_fixed_axis ctxD t x 0 = x ∧
    sl_transform_guest_to_host_fixed_axis ctxD t x 1 = x ∧
    sl_transform_host_to_guest_fixed_axis ctxD t x 0 = x ∧
    sl_transform_host_to_guest_fixed_axis ctxD t x 1 = x ∧
    sl_transform_viewport_scale ctxD t 1 px py = (px, py, true) ∧
    sl_transform_damage_coord ctxD t 1 1 x y x2 y2 = (x, y, x2, y2) := by
  have hfac : sl_transform_get_scale_factors ctxD t =
      (ctxD.xdg_scale_x, ctxD.xdg_scale_y) :=
    get_scale_factors_global ctxD t (by simp [hD, ht])
  refine ⟨?_, ?_, ?_, ?_, ?_, ?_, ?_, ?_, ?_, ?_, ?_, ?_, ?_, ?_, ?_, ?_,
    ?_, ?_, ?_, ?_⟩
  · simp [sl_transform_guest_to_host, hL, hLs, ratTrunc_intCast]
  · simp [sl_transform_host_to_guest, hL, hLs, ratTrunc_intCast]
  · simp [sl_transform_guest_to_host_fixed, hL, hLs, wl_fixed_roundtrip]
  · simp [sl_transform_host_to_guest_fixed, hL, hLs, wl_fixed_roundtrip]
  · simp [sl_transform_guest_to_host_fixed_axis, hL, hLs, wl_fixed_roundtrip]
  · simp [sl_transform_guest_to_host_fixed_axis, hL, hLs, wl_fixed_roundtrip]
  · simp [sl_transform_host_to_guest_fixed_axis, hL, hLs, wl_fixed_roundtrip]
  · simp [sl_transform_host_to_guest_fixed_axis, hL, hLs, wl_fixed_roundtrip]
  · simp [sl_transform_viewport_scale, hL, hLs]
  · simp [sl_transform_output_dimensions, hLs, ratTrunc_intCast]
  · simp [sl_transform_guest_to_host, hD, sl_transform_direct_to_host, hfac,
      hDx, hDy, ratTrunc_intCast]
  · simp only [sl_transform_host_to_guest, hD, if_true,
      sl_transform_direct_to_guest, hfac, hDx, hDy, one_mul]
    rw [roundflag_intCast, roundflag_intCast]
  · simp [sl_transform_guest_to_host_fixed, hD,
      sl_transform_direct_to_host_fixed, hfac, hDx, hDy, wl_fixed_roundtrip]
  · simp [sl_transform_host_to_guest_fixed, hD,
      sl_transform_direct_to_guest_fixed, hfac, hDx, hDy, wl_fixed_roundtrip]
  · simp [sl_transform_guest_to_host_fixed_axis, hD,
      sl_transform_direct_to_host_fixed_axis, sl_transform_direct_axis_scale,
      hfac, hDx, hDy, wl_fixed_roundtrip]
  · simp [sl_transform_guest_to_host_fixed_axis, hD,
      sl_transform_direct_to_host_fixed_axis, sl_transform_direct_axis_scale,
      hfac, hDx, hDy, wl_fixed_roundtrip]
  · simp [sl_transform_host_to_guest_fixed_axis, hD,
      sl_transform_direct_to_guest_fixed_axis, sl_transform_direct_axis_scale,
      hfac, hDx, hDy, wl_fixed_roundtrip]
  · simp [sl_transform_host_to_guest_fixed_axis, hD,
      sl_transform_direct_to_guest_fixed_axis, sl_transform_direct_axis_scale,
      hfac, hDx, hDy, wl_fixed_roundtrip]
  · simp only [sl_transform_viewport_scale, hD, if_true,
      sl_transform_direct_to_host, hfac, hDx, hDy]
    rw [div_one, div_one, ratTrunc_intCast, ratTrunc_intCast]
    rw [if_neg (by omega : ¬ px ≤ 0), if_neg (by omega : ¬ py ≤ 0)]
  · simp [sl_transform_damage_coord, hD, sl_transform_direct_to_host_damage,
      hfac, hDx, hDy, ratTrunc_intCast]

theorem C6_scale_one_identity_witness :
    ((⟨false, 1, 7, 9⟩ : sl_context).use_direct_scale = false) ∧
    ((⟨false, 1, 7, 9⟩ : sl_context).scale = 1) ∧
    ((⟨true, 5, 1, 1⟩ : sl_context).use_direct_scale = true) ∧
    surfaceOwnScale (some ⟨false, 3, 4, true, true, 0, 0⟩) = false ∧
    sl_transform_host_to_guest ⟨false, 1, 7, 9⟩
      (some ⟨false, 3, 4, true, true, 0, 0⟩) 5 (-7) = (5, -7) ∧
    sl_transform_guest_to_host ⟨true, 5, 1, 1⟩
      (some ⟨false, 3, 4, true, true, 0, 0⟩) 5 (-7) = (5, -7) ∧
    sl_transform_host_to_guest ⟨true, 5, 1, 1⟩
      (some ⟨false, 3, 4, true, true, 0, 0⟩) 5 (-7) = (5, -7) ∧
    sl_transform_viewport_scale ⟨true, 5, 1, 1⟩
      (some ⟨false, 3, 4, true, true, 0, 0⟩) 1 2 3 = (2, 3, true) ∧
    sl_transform_damage_coord ⟨true, 5, 1, 1⟩
      (some ⟨false, 3, 4, true, true, 0, 0⟩) 1 1 5 (-7) 20 30 =
      (5, -7, 20, 30) := by
  obtain ⟨c1, c2, c3, c4, c5, c6, c7, c8, c9, c10, c11, c12, c13, c14, c15,
    c16, c17, c18, c19, c20⟩ :=
    C6_scale_one_identity ⟨false, 1, 7, 9⟩ ⟨true, 5, 1, 1⟩
      (some ⟨false, 3, 4, true, true, 0, 0⟩) 5 (-7) 2 3 20 30
      rfl rfl rfl rfl rfl rfl (by omega) (by omega)
  exact ⟨rfl, rfl, rfl, rfl, c2, c11, c12, c19, c20⟩

/-! ### Lemmas about the negotiator -/

theorem guest_to_host_none (ctx : sl_context)
    (hd : ctx.use_direct_scale = true) (x y : ℤ) :
    sl_transform_guest_to_host ctx none x y =
      (ratTrunc ((x : ℚ) / ctx.xdg_scale_x),
       ratTrunc ((y : ℚ) / ctx.xdg_scale_y)) := by
  simp [sl_transform_guest_to_host, hd, sl_transform_direct_to_host,
    sl_transform_get_scale_factors]

theorem host_to_guest_none (ctx : sl_context)
    (hd : ctx.use_direct_scale = true) (x y : ℤ) :
    sl_transform_host_to_guest ctx none x y =
      (ratTrunc (ctx.xdg_scale_x * (x : ℚ)),
       ratTrunc (ctx.xdg_scale_y * (y : ℚ))) := by
  simp [sl_transform_host_to_guest, hd, sl_transform_direct_to_guest,
    sl_transform_get_scale_factors, surfaceRoundX, surfaceRoundY]

theorem logical_pos_nonzero (ctx : sl_context) (w h : ℤ)
    (hd : ctx.use_direct_scale = true)
    (hlw : 0 < (sl_transform_guest_to_host ctx none w h).1)
    (hlh : 0 < (sl_transform_guest_to_host ctx none w h).2) :
    (w : ℚ) ≠ 0 ∧ (h : ℚ) ≠ 0 := by
  rw [guest_to_host_none ctx hd] at hlw hlh
  simp only at hlw hlh
  constructor
  · intro hw0
    have h1 := ratTrunc_pos_one_le hlw
    rw [hw0, zero_div] at h1
    norm_num at h1
  · intro hh0
    have h1 := ratTrunc_pos_one_le hlh
    rw [hh0, zero_div] at h1
    norm_num at h1

theorem install_surface_roundtrip (ctx : sl_context) (s1 : sl_host_surface)
    (w h lw lh : ℤ) (hd : ctx.use_direct_scale = true)
    (hown : s1.has_own_scale = true)
    (hsx : s1.xdg_scale_x = (w : ℚ) / (lw : ℚ))
    (hsy : s1.xdg_scale_y = (h : ℚ) / (lh : ℚ))
    (hw : (w : ℚ) ≠ 0) (hh : (h : ℚ) ≠ 0)
    (hlw : (lw : ℚ) ≠ 0) (hlh : (lh : ℚ) ≠ 0) :
    sl_transform_guest_to_host ctx (some s1) w h = (lw, lh) ∧
    sl_transform_host_to_guest ctx (some s1) lw lh = (w, h) := by
  have hfac := get_scale_factors_own ctx s1 hd hown
  constructor
  · simp only [sl_transform_guest_to_host, hd, if_true,
      sl_transform_direct_to_host, hfac, hsx, hsy]
    rw [div_div_cancel₀ hw, div_div_cancel₀ hh, ratTrunc_intCast,
      ratTrunc_intCast]
  · simp only [sl_transform_host_to_guest, hd, if_true,
      sl_transform_direct_to_guest, hfac, hsx, hsy]
    rw [div_mul_cancel₀ _ hlw, div_mul_cancel₀ _ hlh, roundflag_intCast,
      roundflag_intCast]

theorem try_window_scale_not_install (ctx : sl_context)
    (s : sl_host_surface) (w h : ℤ) (hd : ctx.use_direct_scale = true)
    (hnc : ¬ negotiationInstallCond ctx w h) :
    sl_transform_try_window_scale ctx s w h =
      sl_transform_reset_surface_scale s := by
  unfold negotiationInstallCond at hnc
  unfold sl_transform_try_window_scale
  simp only [hd, Bool.not_true, Bool.false_eq_true, if_false]
  rw [if_neg hnc]

theorem try_window_scale_install (ctx : sl_context)
    (s : sl_host_surface) (w h : ℤ) (hd : ctx.use_direct_scale = true)
    (hc : negotiationInstallCond ctx w h) :
    sl_transform_try_window_scale ctx s w h =
      installedSurface ctx s w h := by
  obtain ⟨hne, hlw, hlh⟩ := hc
  obtain ⟨hw, hh⟩ := logical_pos_nonzero ctx w h hd hlw hlh
  have hlwq : (((sl_transform_guest_to_host ctx none w h).1 : ℤ) : ℚ) ≠ 0 := by
    exact_mod_cast (by omega :
      ((sl_transform_guest_to_host ctx none w h).1 : ℤ) ≠ 0)
  have hlhq : (((sl_transform_guest_to_host ctx none w h).2 : ℤ) : ℚ) ≠ 0 := by
    exact_mod_cast (by omega :
      ((sl_transform_guest_to_host ctx none w h).2 : ℤ) ≠ 0)
  have hK := install_surface_roundtrip ctx (installedSurface ctx s w h) w h
    (sl_transform_guest_to_host ctx none w h).1
    (sl_transform_guest_to_host ctx none w h).2
    hd rfl rfl rfl hw hh hlwq hlhq
  unfold sl_transform_try_window_scale
  simp only [hd, Bool.not_true, Bool.false_eq_true, if_false]
  rw [if_pos ⟨hne, hlw, hlh⟩, hK.1, hK.2]
  simp

theorem transforms_reset_eq_none (ctx : sl_context) (s : sl_host_surface)
    (x y : ℤ) :
    sl_transform_guest_to_host ctx
        (some (sl_transform_reset_surface_scale s)) x y =
      sl_transform_guest_to_host ctx none x y ∧
    sl_transform_host_to_guest ctx
        (some (sl_transform_reset_surface_scale s)) x y =
      sl_transform_host_to_guest ctx none x y := by
  constructor <;>
    simp [sl_transform_guest_to_host, sl_transform_host_to_guest,
      sl_transform_direct_to_host, sl_transform_direct_to_guest,
      sl_transform_get_scale_factors, sl_transform_reset_surface_scale,
      surfaceRoundX, surfaceRoundY]

theorem negotiation_example_logical :
    sl_transform_guest_to_host ⟨true, 1, 3, 3⟩ none 100 100 = (33, 33) := by
  rw [guest_to_host_none ⟨true, 1, 3, 3⟩ rfl]
  norm_num [ratTrunc, Int.floor_eq_iff, Prod.ext_iff]

theorem negotiation_example_reverse :
    sl_transform_host_to_guest ⟨true, 1, 3, 3⟩ none 33 33 = (99, 99) := by
  rw [host_to_guest_none ⟨true, 1, 3, 3⟩ rfl]
  norm_num [ratTrunc, Int.floor_eq_iff, Prod.ext_iff]

theorem negotiation_example_cond :
    negotiationInstallCond ⟨true, 1, 3, 3⟩ 100 100 := by
  unfold negotiationInstallCond
  rw [negotiation_example_logical]
  simp only
  rw [negotiation_example_reverse]
  norm_num

/-- C1: in direct scale mode, for positive integers w and h, after the
negotiator has run on the window with size w and h, a guest to host
then host to guest round trip with the resulting surface reproduces
exactly the pair of w and h, provided the intermediate logical size
computed with the global factors is positive on both axes. -/
theorem C1_roundtrip_after_negotiation (ctx : sl_context)
    (s : sl_host_surface) (w h : ℤ) (hw : 0 < w) (hh : 0 < h)
    (hd : ctx.use_direct_scale = true)
    (hlw : 0 < (sl_transform_guest_to_host ctx none w h).1)
    (hlh : 0 < (sl_transform_guest_to_host ctx none w h).2) :
    sl_transform_host_to_guest ctx
        (some (sl_transform_try_window_scale ctx s w h))
        (sl_transform_guest_to_host ctx
          (some (sl_transform_try_window_scale ctx s w h)) w h).1
        (sl_transform_guest_to_host ctx
          (some (sl_transform_try_window_scale ctx s w h)) w h).2 =
      (w, h) := by
  by_cases hc : negotiationInstallCond ctx w h
  · rw [try_window_scale_install ctx s w h hd hc]
    obtain ⟨hwq, hhq⟩ := logical_pos_nonzero ctx w h hd hlw hlh
    have hlwq : (((sl_transform_guest_to_host ctx none w h).1 : ℤ) : ℚ)
        ≠ 0 := by
      exact_mod_cast (by omega :
        ((sl_transform_guest_to_host ctx none w h).1 : ℤ) ≠ 0)
    have hlhq : (((sl_transform_guest_to_host ctx none w h).2 : ℤ) : ℚ)
        ≠ 0 := by
      exact_mod_cast (by omega :
        ((sl_transform_guest_to_host ctx none w h).2 : ℤ) ≠ 0)
    have hK := install_surface_roundtrip ctx (installedSurface ctx s w h) w h
      (sl_transform_guest_to_host ctx none w h).1
      (sl_transform_guest_to_host ctx none w h).2
      hd rfl rfl rfl hwq hhq hlwq hlhq
    rw [hK.1]
    simpa using hK.2
  · rw [try_window_scale_not_install ctx s w h hd hc]
    rw [(transforms_reset_eq_none ctx s w h).1,
      (transforms_reset_eq_none ctx s
        (sl_transform_guest_to_host ctx none w h).1
        (sl_transform_guest_to_host ctx none w h).2).2]
    have hA : ¬ ((sl_transform_host_to_guest ctx none
        (sl_transform_guest_to_host ctx none w h).1
        (sl_transform_guest_to_host ctx none w h).2).1 ≠ w ∨
      (sl_transform_host_to_guest ctx none
        (sl_transform_guest_to_host ctx none w h).1
        (sl_transform_guest_to_host ctx none w h).2).2 ≠ h) :=
      fun hAn => hc ⟨hAn, hlw, hlh⟩
    push_neg at hA
    exact Prod.ext hA.1 hA.2

theorem C1_roundtrip_after_negotiation_witness :
    (0 : ℤ) < 100 ∧
    ((⟨true, 1, 3, 3⟩ : sl_context).use_direct_scale = true) ∧
    0 < (sl_transform_guest_to_host ⟨true, 1, 3, 3⟩ none 100 100).1 ∧
    0 < (sl_transform_guest_to_host ⟨true, 1, 3, 3⟩ none 100 100).2 ∧
    sl_transform_host_to_guest ⟨true, 1, 3, 3⟩
        (some (sl_transform_try_window_scale ⟨true, 1, 3, 3⟩
          ⟨false, 0, 0, false, false, 0, 0⟩ 100 100))
        (sl_transform_guest_to_host ⟨true, 1, 3, 3⟩
          (some (sl_transform_try_window_scale ⟨true, 1, 3, 3⟩
            ⟨false, 0, 0, false, false, 0, 0⟩ 100 100)) 100 100).1
        (sl_transform_guest_to_host ⟨true, 1, 3, 3⟩
          (some (sl_transform_try_window_scale ⟨true, 1, 3, 3⟩
            ⟨false, 0, 0, false, false, 0, 0⟩ 100 100)) 100 100).2 =
      (100, 100) := by
  refine ⟨by norm_num, rfl, ?_, ?_, ?_⟩
  · rw [negotiation_example_logical]
    norm_num
  · rw [negotiation_example_logical]
    norm_num
  · exact C1_roundtrip_after_negotiation ⟨true, 1, 3, 3⟩
      ⟨false, 0, 0, false, false, 0, 0⟩ 100 100 (by norm_num) (by norm_num)
      rfl
      (by rw [negotiation_example_logical]; norm_num)
      (by rw [negotiation_example_logical]; norm_num)

/-- C2 counterexample: a surface entering the negotiator with a stale
horizontal rounding flag keeps that flag after an override install even
though the re-test round trip with the new override is exact, so the
install branch does not clear the rounding flags. -/
theorem C2_counterexample :
    (sl_transform_try_window_scale ⟨true, 1, 3, 3⟩
      ⟨false, 0, 0, true, false, 0, 0⟩ 100 100).has_own_scale = true ∧
    sl_transform_host_to_guest ⟨true, 1, 3, 3⟩
        (some (sl_transform_try_window_scale ⟨true, 1, 3, 3⟩
          ⟨false, 0, 0, true, false, 0, 0⟩ 100 100))
        (sl_transform_guest_to_host ⟨true, 1, 3, 3⟩
          (some (sl_transform_try_window_scale ⟨true, 1, 3, 3⟩
            ⟨false, 0, 0, true, false, 0, 0⟩ 100 100)) 100 100).1
        (sl_transform_guest_to_host ⟨true, 1, 3, 3⟩
          (some (sl_transform_try_window_scale ⟨true, 1, 3, 3⟩
            ⟨false, 0, 0, true, false, 0, 0⟩ 100 100)) 100 100).2 =
      (100, 100) ∧
    (sl_transform_try_window_scale ⟨true, 1, 3, 3⟩
      ⟨false, 0, 0, true, false, 0, 0⟩ 100 100).scale_round_on_x = true := by
  rw [try_window_scale_install ⟨true, 1, 3, 3⟩
    ⟨false, 0, 0, true, false, 0, 0⟩ 100 100 rfl negotiation_example_cond]
  have hK := install_surface_roundtrip ⟨true, 1, 3, 3⟩
    (installedSurface ⟨true, 1, 3, 3⟩
      ⟨false, 0, 0, true, false, 0, 0⟩ 100 100)
    100 100 33 33 rfl rfl
    (by simp only [installedSurface, negotiation_example_logical])
    (by simp only [installedSurface, negotiation_example_logical])
    (by norm_num) (by norm_num) (by norm_num) (by norm_num)
  refine ⟨rfl, ?_, rfl⟩
  rw [hK.1]
  simpa using hK.2

/-- C2 amended: whenever the negotiator takes the install branch, the
resulting surface has the override flag set, the override factors equal
to the ratios of the requested pixel size to the logical size, and the
logical size cached; the per axis rounding flags are not cleared: in
the exact rational model the re-test round trip with the new override
is always exact, so each rounding flag simply keeps the value the
surface already had on entry. -/
theorem C2_install_contract (ctx : sl_context) (s : sl_host_surface)
    (w h : ℤ) (hd : ctx.use_direct_scale = true)
    (hc : negotiationInstallCond ctx w h) :
    (sl_transform_try_window_scale ctx s w h).has_own_scale = true ∧
    (sl_transform_try_window_scale ctx s w h).xdg_scale_x =
      (w : ℚ) / ((sl_transform_guest_to_host ctx none w h).1 : ℚ) ∧
    (sl_transform_try_window_scale ctx s w h).xdg_scale_y =
      (h : ℚ) / ((sl_transform_guest_to_host ctx none w h).2 : ℚ) ∧
    (sl_transform_try_window_scale ctx s w h).cached_logical_width =
      (sl_transform_guest_to_host ctx none w h).1 ∧
    (sl_transform_try_window_scale ctx s w h).cached_logical_height =
      (sl_transform_guest_to_host ctx none w h).2 ∧
    (sl_transform_try_window_scale ctx s w h).scale_round_on_x =
      s.scale_round_on_x ∧
    (sl_transform_try_window_scale ctx s w h).scale_round_on_y =
      s.scale_round_on_y := by
  rw [try_window_scale_install ctx s w h hd hc]
  exact ⟨rfl, rfl, rfl, rfl, rfl, rfl, rfl⟩

theorem C2_install_contract_witness :
    ((⟨true, 1, 3, 3⟩ : sl_context).use_direct_scale = true) ∧
    negotiationInstallCond ⟨true, 1, 3, 3⟩ 100 100 ∧
    (sl_transform_try_window_scale ⟨true, 1, 3, 3⟩
      ⟨false, 0, 0, true, false, 0, 0⟩ 100 100).has_own_scale = true ∧
    (sl_transform_try_window_scale ⟨true, 1, 3, 3⟩
      ⟨false, 0, 0, true, false, 0, 0⟩ 100 100).xdg_scale_x = 100 / 33 ∧
    (sl_transform_try_window_scale ⟨true, 1, 3, 3⟩
      ⟨false, 0, 0, true, false, 0, 0⟩ 100 100).cached_logical_width = 33 ∧
    (sl_transform_try_window_scale ⟨true, 1, 3, 3⟩
      ⟨false, 0, 0, true, false, 0, 0⟩ 100 100).scale_round_on_x = true ∧
    (sl_transform_try_window_scale ⟨true, 1, 3, 3⟩
      ⟨false, 0, 0, true, false, 0, 0⟩ 100 100).scale_round_on_y = false := by
  obtain ⟨h1, h2, h3, h4, h5, h6, h7⟩ := C2_install_contract ⟨true, 1, 3, 3⟩
    ⟨false, 0, 0, true, false, 0, 0⟩ 100 100 rfl negotiation_example_cond
  refine ⟨rfl, negotiation_example_cond, h1, ?_, ?_, h6, h7⟩
  · rw [h2, negotiation_example_logical]
    norm_num
  · rw [h4, negotiation_example_logical]

/-- C9: with positive global direct mode factors, the resolver yields
positive factors for any surface without an override, and whenever the
negotiator installs an override the installed factors are positive, as
are the factors the resolver then yields for the negotiated surface, so
every scale factor divided by in the transform operations is strictly
positive. -/
theorem C9_positive_scale_factors (ctx : sl_context) (s : sl_host_surface)
    (w h : ℤ) (t : Option sl_host_surface)
    (hx : 0 < ctx.xdg_scale_x) (hy : 0 < ctx.xdg_scale_y)
    (hd : ctx.use_direct_scale = true)
    (ht : surfaceOwnScale t = false) :
    (0 < (sl_transform_get_scale_factors ctx t).1 ∧
     0 < (sl_transform_get_scale_factors ctx t).2) ∧
    ((sl_transform_try_window_scale ctx s w h).has_own_scale = true →
      0 < (sl_transform_try_window_scale ctx s w h).xdg_scale_x ∧
      0 < (sl_transform_try_window_scale ctx s w h).xdg_scale_y) ∧
    (0 < (sl_transform_get_scale_factors ctx
        (some (sl_transform_try_window_scale ctx s w h))).1 ∧
     0 < (sl_transform_get_scale_factors ctx
        (some (sl_transform_try_window_scale ctx s w h))).2) := by
  have hglob : sl_transform_get_scale_factors ctx t =
      (ctx.xdg_scale_x, ctx.xdg_scale_y) :=
    get_scale_factors_global ctx t (by simp [ht])
  refine ⟨by rw [hglob]; exact ⟨hx, hy⟩, ?_⟩
  by_cases hc : negotiationInstallCond ctx w h
  · obtain ⟨hne, hlw, hlh⟩ := hc
    have hq1 : (0 : ℚ) < (w : ℚ) / ctx.xdg_scale_x := by
      have h1 : 0 < ratTrunc ((w : ℚ) / ctx.xdg_scale_x) := by
        rw [guest_to_host_none ctx hd] at hlw
        simpa using hlw
      exact lt_of_lt_of_le zero_lt_one (ratTrunc_pos_one_le h1)
    have hq2 : (0 : ℚ) < (h : ℚ) / ctx.xdg_scale_y := by
      have h1 : 0 < ratTrunc ((h : ℚ) / ctx.xdg_scale_y) := by
        rw [guest_to_host_none ctx hd] at hlh
        simpa using hlh
      exact lt_of_lt_of_le zero_lt_one (ratTrunc_pos_one_le h1)
    have hwpos : (0 : ℚ) < (w : ℚ) := by
      rcases div_pos_iff.mp hq1 with ⟨ha, _⟩ | ⟨_, hb⟩
      · exact ha
      · linarith
    have hhpos : (0 : ℚ) < (h : ℚ) := by
      rcases div_pos_iff.mp hq2 with ⟨ha, _⟩ | ⟨_, hb⟩
      · exact ha
      · linarith
    have hinstall := try_window_scale_install ctx s w h hd ⟨hne, hlw, hlh⟩
    rw [hinstall]
    have hsx : (0 : ℚ) < (installedSurface ctx s w h).xdg_scale_x := by
      simp only [installedSurface]
      exact div_pos hwpos (by exact_mod_cast hlw)
    have hsy : (0 : ℚ) < (installedSurface ctx s w h).xdg_scale_y := by
      simp only [installedSurface]
      exact div_pos hhpos (by exact_mod_cast hlh)
    refine ⟨fun _ => ⟨hsx, hsy⟩, ?_⟩
    rw [get_scale_factors_own ctx (installedSurface ctx s w h) hd rfl]
    exact ⟨hsx, hsy⟩
  · rw [try_window_scale_not_install ctx s w h hd hc]
    have hglob2 : sl_transform_get_scale_factors ctx
        (some (sl_transform_reset_surface_scale s)) =
        (ctx.xdg_scale_x, ctx.xdg_scale_y) :=
      get_scale_factors_global ctx
        (some (sl_transform_reset_surface_scale s))
        (by simp [surfaceOwnScale, sl_transform_reset_surface_scale])
    refine ⟨?_, ?_⟩
    · intro habs
      simp [sl_transform_reset_surface_scale] at habs
    · rw [hglob2]
      exact ⟨hx, hy⟩

theorem C9_positive_scale_factors_witness :
    (0 : ℚ) < (3 : ℚ) ∧
    ((⟨true, 1, 3, 3⟩ : sl_context).use_direct_scale = true) ∧
    surfaceOwnScale (none : Option sl_host_surface) = false ∧
    0 < (sl_transform_get_scale_factors ⟨true, 1, 3, 3⟩ none).1 ∧
    0 < (sl_transform_get_scale_factors ⟨true, 1, 3, 3⟩
      (some (sl_transform_try_window_scale ⟨true, 1, 3, 3⟩
        ⟨false, 0, 0, false, false, 0, 0⟩ 100 100))).1 ∧
    0 < (sl_transform_get_scale_factors ⟨true, 1, 3, 3⟩
      (some (sl_transform_try_window_scale ⟨true, 1, 3, 3⟩
        ⟨false, 0, 0, false, false, 0, 0⟩ 100 100))).2 := by
  obtain ⟨hA, hB, hC⟩ := C9_positive_scale_factors ⟨true, 1, 3, 3⟩
    ⟨false, 0, 0, false, false, 0, 0⟩ 100 100 none
    (by norm_num) (by norm_num) rfl rfl
  exact ⟨by norm_num, rfl, rfl, hA.1, hC.1, hC.2⟩
